import Mathlib

/-!
Shallow embedding of the resampling-based statistical inference core of the
repository (src/utils/eda/significance/bootstrap.py, tests.py, wrapper.py and
src/utils/eda/calculate.py), together with theorems settling the frozen claims.

Modelling conventions:
* Python/NumPy floating-point scalars are modelled by `PyFloat`: either a
  finite exact rational, or one of the non-finite values NaN, +inf, -inf,
  with IEEE-754 comparison and arithmetic propagation rules (NaN compares
  false, division of a nonzero finite by zero gives a signed infinity,
  0/0 gives NaN, and so on).  Data arrays hold finite values and are
  modelled as `List ℚ`.
* `np.random.shuffle` is modelled by an oracle `shuffler : ℕ → List ℚ → List ℚ`
  giving the pool contents after the shuffle of each iteration; the shuffle of
  iteration i acts on the pool left by iteration i-1, exactly as the in-place
  NumPy shuffle does.  Faithfulness hypotheses (each shuffle permutes its
  input) are stated where a theorem needs them.
* Library calls that compute transcendental quantities (normal and
  t/F/chi-square distribution tail probabilities, machine square roots) are
  modelled as oracle parameters: the p-values as opaque `PyFloat` inputs, the
  machine square root as a function `sqrtFn : ℚ → ℚ`.  Counterexamples
  instantiate `sqrtFn` with `ratSqrt`, which is exact on perfect squares, and
  are arranged so that every square root they depend on is a perfect square,
  making the counterexample trace agree with the floating-point execution.
-/

namespace DSUni

/-- Model of a Python/NumPy double: NaN, signed infinities, or a finite
rational value. -/
inductive PyFloat where
  | nan : PyFloat
  | pinf : PyFloat
  | ninf : PyFloat
  | fin (q : ℚ) : PyFloat
deriving DecidableEq

/-- IEEE negation. -/
def pyNeg : PyFloat → PyFloat
  | .nan => .nan
  | .pinf => .ninf
  | .ninf => .pinf
  | .fin q => .fin (-q)

/-- IEEE addition: NaN propagates, opposite infinities give NaN. -/
def pyAdd : PyFloat → PyFloat → PyFloat
  | .nan, _ => .nan
  | _, .nan => .nan
  | .pinf, .ninf => .nan
  | .ninf, .pinf => .nan
  | .pinf, _ => .pinf
  | _, .pinf => .pinf
  | .ninf, _ => .ninf
  | _, .ninf => .ninf
  | .fin a, .fin b => .fin (a + b)

/-- IEEE subtraction, as addition of the negation. -/
def pySub (a b : PyFloat) : PyFloat := pyAdd a (pyNeg b)

/-- IEEE multiplication: NaN propagates, infinity times zero is NaN. -/
def pyMul : PyFloat → PyFloat → PyFloat
  | .nan, _ => .nan
  | _, .nan => .nan
  | .pinf, .pinf => .pinf
  | .pinf, .ninf => .ninf
  | .ninf, .pinf => .ninf
  | .ninf, .ninf => .pinf
  | .pinf, .fin q => if q = 0 then .nan else if 0 < q then .pinf else .ninf
  | .fin q, .pinf => if q = 0 then .nan else if 0 < q then .pinf else .ninf
  | .ninf, .fin q => if q = 0 then .nan else if 0 < q then .ninf else .pinf
  | .fin q, .ninf => if q = 0 then .nan else if 0 < q then .ninf else .pinf
  | .fin a, .fin b => .fin (a * b)

/-- IEEE division as NumPy performs it on float64 scalars: a nonzero finite
numerator over zero gives a signed infinity (with a runtime warning, not an
exception), 0/0 and inf/inf give NaN. -/
def pyDiv : PyFloat → PyFloat → PyFloat
  | .nan, _ => .nan
  | _, .nan => .nan
  | .pinf, .pinf => .nan
  | .pinf, .ninf => .nan
  | .ninf, .pinf => .nan
  | .ninf, .ninf => .nan
  | .pinf, .fin q => if q < 0 then .ninf else .pinf
  | .ninf, .fin q => if q < 0 then .pinf else .ninf
  | .fin _, .pinf => .fin 0
  | .fin _, .ninf => .fin 0
  | .fin a, .fin b =>
    if b = 0 then (if a = 0 then .nan else if 0 < a then .pinf else .ninf)
    else .fin (a / b)

/-- IEEE absolute value. -/
def pyAbs : PyFloat → PyFloat
  | .nan => .nan
  | .pinf => .pinf
  | .ninf => .pinf
  | .fin q => .fin |q|

/-- IEEE `>=` comparison: any comparison with NaN is false. -/
def pyGe : PyFloat → PyFloat → Bool
  | .nan, _ => false
  | _, .nan => false
  | .pinf, _ => true
  | .ninf, .ninf => true
  | .ninf, _ => false
  | .fin _, .pinf => false
  | .fin _, .ninf => true
  | .fin a, .fin b => decide (b ≤ a)

/-- Sum of a list of floats, starting from 0 (as both the Python builtin
`sum` and `np.sum` do). -/
def pySum (l : List PyFloat) : PyFloat := l.foldl pyAdd (.fin 0)

/-- Machine square root of a float, in terms of an oracle `sqrtFn` giving the
machine square root of a nonnegative finite rational. -/
def pySqrt (sqrtFn : ℚ → ℚ) : PyFloat → PyFloat
  | .nan => .nan
  | .pinf => .pinf
  | .ninf => .nan
  | .fin q => if q < 0 then .nan else .fin (sqrtFn q)

/-- Exact square root on ℕ by linear search (structurally recursive, so
concrete instances reduce inside proofs).  For a perfect square it returns
the exact root. -/
def natSqrtLin (n : ℕ) : ℕ :=
  ((List.range (n + 1)).filter (fun k => decide (k * k ≤ n))).length - 1

/-- Rational-valued square root oracle: exact whenever numerator and
denominator are perfect squares.  Counterexample inputs are arranged so that
every square root they rely on hits a perfect square, where the machine
square root is also exact. -/
def ratSqrt (q : ℚ) : ℚ := (natSqrtLin q.num.toNat : ℚ) / (natSqrtLin q.den : ℚ)

/-- `np.mean` of a numeric array: NaN on an empty array (with a runtime
warning, not an exception). -/
def pyMean (xs : List ℚ) : PyFloat :=
  if xs.length = 0 then .nan else .fin (xs.sum / (xs.length : ℚ))

/-- `arr.var(ddof=1)`, the sample variance: NaN for fewer than 2 observations
(0/0 or an empty mean), finite otherwise. -/
def pyVar (xs : List ℚ) : PyFloat :=
  if xs.length ≤ 1 then .nan
  else
    let m : ℚ := xs.sum / (xs.length : ℚ)
    .fin ((xs.map (fun x => (x - m) ^ 2)).sum / ((xs.length : ℚ) - 1))

/-- Stable insertion of an element into a list, in front of the first element
it is `le`-below. -/
def insertLe (le : ℚ → ℚ → Bool) (x : ℚ) : List ℚ → List ℚ
  | [] => [x]
  | y :: ys => if le x y then x :: y :: ys else y :: insertLe le x ys

/-- Stable sort (model of the sorting done by pandas and `np.unique`; for
rational values any correct sort produces the same list). -/
def sortQ (xs : List ℚ) : List ℚ :=
  xs.foldr (insertLe (fun a b => decide (a ≤ b))) []

/-- `pandas.Series.median`: sort, take the middle element (odd length) or the
mean of the two middle elements (even length); NaN on an empty series. -/
def pdMedian (xs : List ℚ) : PyFloat :=
  let s := sortQ xs
  let n := s.length
  if n = 0 then .nan
  else if n % 2 = 1 then .fin (s.getD (n / 2) 0)
  else .fin ((s.getD (n / 2 - 1) 0 + s.getD (n / 2) 0) / 2)

/-- `np.quantile` with the default linear interpolation; NaN on an empty
array. -/
def npQuantile (xs : List ℚ) (q : ℚ) : PyFloat :=
  let s := sortQ xs
  let n := s.length
  if n = 0 then .nan
  else
    let h : ℚ := q * ((n : ℚ) - 1)
    let lo : ℕ := (⌊h⌋).toNat
    let lov := s.getD lo 0
    let hiv := s.getD (min (lo + 1) (n - 1)) 0
    .fin (lov + (h - (lo : ℚ)) * (hiv - lov))

/-- Round a rational to an integer, halves to even (the IEEE/NumPy rounding
used by `DataFrame.round`). -/
def roundHalfEven (q : ℚ) : ℤ :=
  let f := ⌊q⌋
  let r := q - (f : ℚ)
  if r < 1 / 2 then f
  else if 1 / 2 < r then f + 1
  else if f % 2 = 0 then f else f + 1

/-- `round(·, 6)` on a rational, as applied by `DataFrame.round(6)`. -/
def round6 (q : ℚ) : ℚ := ((roundHalfEven (q * 1000000) : ℚ)) / 1000000

/-- `DataFrame.round(6)` on a float cell: non-finite values are unchanged. -/
def pyRound6 : PyFloat → PyFloat
  | .fin q => .fin (round6 q)
  | x => x

/-! ### PermutationEngine: `permutation_pvalue` (bootstrap.py, lines 4-30) -/

/-- State of the flattened pool at permutation iteration `i`: the in-place
`np.random.shuffle` of iteration `i` acts on the pool left by iteration
`i - 1`.  The shuffle itself is the oracle `shuffler`. -/
def poolSeq (shuffler : ℕ → List ℚ → List ℚ) (flat : List ℚ) : ℕ → List ℚ
  | 0 => shuffler 0 flat
  | i + 1 => shuffler (i + 1) (poolSeq shuffler flat i)

/-- `np.split(xs, np.cumsum(sizes)[:-1])`: cut `xs` at the running totals of
all sizes but the last, so the list of sizes yields exactly that many
contiguous chunks, the last chunk taking everything that remains. -/
def npSplitSizes (xs : List ℚ) : List ℕ → List (List ℚ)
  | [] => [xs]
  | [_] => [xs]
  | n :: m :: ns => xs.take n :: npSplitSizes (xs.drop n) (m :: ns)

/-- The reshuffled groups of permutation iteration `i`
(`res = np.split(flat, np.cumsum(sizes)[:-1])` in bootstrap.py, line 26). -/
def permIterGroups (groups : List (List ℚ)) (shuffler : ℕ → List ℚ → List ℚ)
    (i : ℕ) : List (List ℚ) :=
  npSplitSizes (poolSeq shuffler groups.flatten i) (groups.map List.length)

/-- `permutation_pvalue(groups, stat_func, num_samples, two_sided)`
(bootstrap.py).  The statistic function returns a float; an iteration is a
hit when `abs(t) >= abs(t_obs)` (two-sided) or `t >= t_obs` (one-sided, the
default).  The result is `hits / num_samples`.  Error cases are the ones the
Python code actually raises: an empty group list fails inside
`np.concatenate` (or inside the statistic function), and `num_samples = 0`
raises `ZeroDivisionError` at the final division.  Note `range(n)` is empty
for `n <= 0`, so a negative `num_samples` reaches the division with
`hits = 0`. -/
def permutation_pvalue (groups : List (List ℚ)) (statFn : List (List ℚ) → PyFloat)
    (numSamples : ℤ) (twoSided : Bool) (shuffler : ℕ → List ℚ → List ℚ) :
    Except String ℚ :=
  if groups.isEmpty then .error "ValueError: need at least one array to concatenate"
  else
    let tObs := statFn groups
    let hit : ℕ → Bool := fun i =>
      let t := statFn (permIterGroups groups shuffler i)
      if twoSided then pyGe (pyAbs t) (pyAbs tObs) else pyGe t tObs
    let hits : ℕ := (List.range numSamples.toNat).countP hit
    if numSamples = 0 then .error "ZeroDivisionError: division by zero"
    else .ok ((hits : ℚ) / (numSamples : ℚ))

/-! ### ParametricTests (tests.py) -/

/-- The Welch two-sample t statistic `(mean x - mean y) / sqrt(var x / n_x +
var y / n_y)` computed by `scipy.stats.ttest_ind(x, y, equal_var=False)`, the
configuration used at every call site of `ttest_two_samples`.  Degenerate
inputs follow NumPy float semantics: a group with fewer than 2 observations
makes its variance NaN, and a zero denominator makes the statistic a signed
infinity or NaN. -/
def ttestStat (sqrtFn : ℚ → ℚ) (x y : List ℚ) : PyFloat :=
  pyDiv (pySub (pyMean x) (pyMean y))
    (pySqrt sqrtFn
      (pyAdd (pyDiv (pyVar x) (.fin (x.length : ℚ)))
             (pyDiv (pyVar y) (.fin (y.length : ℚ)))))

/-- The statistic closure `lambda groups: ttest_ind(groups[0], groups[1],
equal_var=equal_var)[0]` passed to `permutation_pvalue` (tests.py, line 21). -/
def ttestStatFn (sqrtFn : ℚ → ℚ) (gs : List (List ℚ)) : PyFloat :=
  ttestStat sqrtFn (gs.headD []) ((gs.drop 1).headD [])

/-- The dict returned by `ttest_two_samples` (tests.py, lines 26-34). -/
structure TTestResult where
  N_x : ℕ
  N_y : ℕ
  Mean_x : PyFloat
  Mean_y : PyFloat
  t_stat : PyFloat
  p_classic : PyFloat
  p_perm : ℚ
deriving DecidableEq

/-- `ttest_two_samples(x, y)` (tests.py, lines 7-34): the classical Welch t
statistic and p-value, plus a permutation p-value obtained by calling
`permutation_pvalue([x, y], stat_func, num_samples=num_permutations)` —
leaving `two_sided` at its default `False`.  The classical p-value (a
t-distribution tail probability computed by scipy) is the oracle input
`pClassic`. -/
def ttest_two_samples (x y : List ℚ) (numPerms : ℤ) (sqrtFn : ℚ → ℚ)
    (shuffler : ℕ → List ℚ → List ℚ) (pClassic : PyFloat) :
    Except String TTestResult :=
  match permutation_pvalue [x, y] (ttestStatFn sqrtFn) numPerms false shuffler with
  | .error e => .error e
  | .ok pperm =>
    .ok { N_x := x.length, N_y := y.length
          Mean_x := pyMean x, Mean_y := pyMean y
          t_stat := ttestStat sqrtFn x y
          p_classic := pClassic
          p_perm := pperm }

/-- `_f_statistic(groups)` (tests.py, lines 37-52), the one-way ANOVA F
statistic, with NumPy float semantics throughout: no precondition is checked,
`k = 1` divides by zero in `ms_between`, `N = k` divides by zero in
`ms_within`, and an empty group contributes NaN to the between-group sum but
0.0 to the within-group sum (an empty array summed is 0.0). -/
def fStatistic (groups : List (List ℚ)) : PyFloat :=
  let k := groups.length
  let N := (groups.map List.length).sum
  let grand := pyMean groups.flatten
  let ssBetween := pySum (groups.map (fun a =>
    pyMul (.fin (a.length : ℚ)) (pyMul (pySub (pyMean a) grand) (pySub (pyMean a) grand))))
  let ssWithin := pySum (groups.map (fun a =>
    pySum (a.map (fun x => pyMul (pySub (.fin x) (pyMean a)) (pySub (.fin x) (pyMean a))))))
  let msBetween := pyDiv ssBetween (.fin ((k : ℤ) - 1 : ℤ))
  let msWithin := pyDiv ssWithin (.fin (((N : ℤ) - (k : ℤ) : ℤ) : ℚ))
  pyDiv msBetween msWithin

/-- The dict returned by `anova_oneway` (tests.py, lines 76-80). -/
structure AnovaResult where
  f_statistic : PyFloat
  p_parametric : PyFloat
  p_perm : ℚ
deriving DecidableEq

/-- `anova_oneway(groups)` (tests.py, lines 55-74).  It performs no
validation of its own: it calls `scipy.stats.f_oneway(*groups)` — which
raises `TypeError` only when given fewer than two samples, and otherwise
returns the F statistic (NaN, with a warning, on degenerate data) — and then
`permutation_pvalue(groups, _f_statistic, two_sided=False)`.  The classical
F-distribution p-value is the oracle input `pClassic`. -/
def anova_oneway (groups : List (List ℚ)) (pClassic : PyFloat) (numPerms : ℤ)
    (shuffler : ℕ → List ℚ → List ℚ) : Except String AnovaResult :=
  if groups.length < 2 then .error "TypeError: at least two inputs are required"
  else
    match permutation_pvalue groups fStatistic numPerms false shuffler with
    | .error e => .error e
    | .ok pperm =>
      .ok { f_statistic := fStatistic groups, p_parametric := pClassic, p_perm := pperm }

/-! ### Chi-square independence test (tests.py, lines 83-136) -/

/-- `np.unique(np.concatenate(groups))`: the sorted distinct values across
all groups. -/
def levelsOf (groups : List (List ℚ)) : List ℚ := sortQ groups.flatten.dedup

/-- The contingency table: one row of level counts per group. -/
def tableOf (groups : List (List ℚ)) (levels : List ℚ) : List (List ℕ) :=
  groups.map (fun g => levels.map (fun l => g.count l))

/-- Whether `scipy.stats.chi2_contingency` rejects the table: it raises
`ValueError` when the table of expected frequencies has a zero element,
i.e. when some row or column marginal is zero (or the table is empty). -/
def chi2Bad (groups : List (List ℚ)) : Bool :=
  let levels := levelsOf groups
  let table := tableOf groups levels
  decide (levels.length = 0) ||
  table.any (fun r => decide (r.sum = 0)) ||
  (List.range levels.length).any (fun j => decide ((table.map (fun r => r.getD j 0)).sum = 0))

/-- `_chi2_statistic(groups)` (tests.py, lines 83-97): Pearson chi-square of
the contingency table, `sum((observed - expected)^2 / expected)` with
`expected = row_total * col_total / N`, no continuity correction.  On a table
with a zero marginal `chi2_contingency` raises; callers check `chi2Bad`
before relying on this value, and within the permutation loop the marginals
equal those of the observed table, so the degenerate branch (here NaN) is
never reached after the observed table has passed the check. -/
def chi2Stat (groups : List (List ℚ)) : PyFloat :=
  if chi2Bad groups then .nan
  else
    let levels := levelsOf groups
    let table := tableOf groups levels
    let rowSums := table.map (fun r => r.sum)
    let colSums := (List.range levels.length).map (fun j => (table.map (fun r => r.getD j 0)).sum)
    let N : ℚ := (rowSums.sum : ℕ)
    let cells := (table.zip rowSums).flatMap (fun rc =>
      (rc.1.zip colSums).map (fun oc =>
        let e : ℚ := ((rc.2 : ℚ) * (oc.2 : ℚ)) / N
        ((oc.1 : ℚ) - e) ^ 2 / e))
    .fin cells.sum

/-- The dict returned by `chi2_independence` (tests.py, lines 132-136). -/
structure Chi2Result where
  chi2_statistic : PyFloat
  p_parametric : PyFloat
  p_perm : ℚ
deriving DecidableEq

/-- `chi2_independence(groups)` (tests.py, lines 100-130): observed Pearson
chi-square, classical p-value (oracle input `pClassic`), and a one-sided
permutation p-value over `_chi2_statistic`. -/
def chi2_independence (groups : List (List ℚ)) (pClassic : PyFloat) (numPerms : ℤ)
    (shuffler : ℕ → List ℚ → List ℚ) : Except String Chi2Result :=
  if groups.isEmpty then .error "ValueError: need at least one array to concatenate"
  else if chi2Bad groups then
    .error "ValueError: the internally computed table of expected frequencies has a zero element"
  else
    match permutation_pvalue groups chi2Stat numPerms false shuffler with
    | .error e => .error e
    | .ok pperm =>
      .ok { chi2_statistic := chi2Stat groups, p_parametric := pClassic, p_perm := pperm }

/-! ### TestSuiteRunner (wrapper.py) and interval estimation (calculate.py).

The upstream pandas DataFrame is modelled at its interface: a list of rows,
each carrying the time-slot key, the total event count, the per-category
event-count columns (as a function from category name to count) and the
numeric columns (as a function from column name to an optional value, `none`
modelling NaN, which `dropna` removes and which comparisons treat as
false). -/

/-- One DataFrame row, at the interface this core consumes. -/
structure Row where
  time : String
  event_count : ℚ
  cat : String → ℚ
  vals : String → Option ℚ

/-- Rows in the target time slots: `df[df[time_col].isin(top_times)]`. -/
def targetRows (df : List Row) (topTimes : List String) : List Row :=
  df.filter (fun r => topTimes.contains r.time)

/-- The observations of one category inside the top time slots:
`df.loc[df[time_col].isin(top_times) & (df[cat_col] > 0), return_col]
.dropna()` (wrapper.py, lines 157-158). -/
def catGroup (df : List Row) (topTimes : List String) (returnCol : String)
    (c : String) : List ℚ :=
  (df.filter (fun r => topTimes.contains r.time && decide (0 < r.cat c))).filterMap
    (fun r => r.vals returnCol)

/-- The baseline observations: top-time rows with no news at all
(wrapper.py, lines 151-152). -/
def catBaseline (df : List Row) (topTimes : List String) (returnCol : String) :
    List ℚ :=
  (df.filter (fun r => topTimes.contains r.time && decide (r.event_count = 0))).filterMap
    (fun r => r.vals returnCol)

/-- The effect size computed at wrapper.py, lines 173-175:
`(Mean_x - Mean_y) / np.sqrt((group.var(ddof=1) + baseline.var(ddof=1)) / 2)`
— the difference of means over the square root of the unweighted average of
the two sample variances. -/
def cohenD (sqrtFn : ℚ → ℚ) (g b : List ℚ) (mx my : PyFloat) : PyFloat :=
  pyDiv (pySub mx my)
    (pySqrt sqrtFn (pyDiv (pyAdd (pyVar g) (pyVar b)) (.fin 2)))

/-- The claimed effect size, stated for comparison with `cohenD`: difference
of means divided by the pooled standard deviation, where the pooled variance
weights each sample variance by its degrees of freedom,
`((n_x - 1) var_x + (n_y - 1) var_y) / (n_x + n_y - 2)`. -/
def specPooledCohenD (sqrtFn : ℚ → ℚ) (g b : List ℚ) : PyFloat :=
  pyDiv (pySub (pyMean g) (pyMean b))
    (pySqrt sqrtFn
      (pyDiv (pyAdd (pyMul (.fin ((g.length : ℤ) - 1 : ℤ)) (pyVar g))
                    (pyMul (.fin ((b.length : ℤ) - 1 : ℤ)) (pyVar b)))
             (.fin (((g.length : ℤ) + (b.length : ℤ) - 2 : ℤ) : ℚ))))

/-- One row of the per-category results table (wrapper.py, lines 165-176). -/
structure CatRow where
  category : String
  n_with : ℕ
  n_baseline : ℕ
  mean_with : PyFloat
  mean_baseline : PyFloat
  t_stat : PyFloat
  p_perm : ℚ
  cohen_d : PyFloat
deriving DecidableEq

/-- A result row annotated with its Holm-adjusted p-value
(wrapper.py, line 191). -/
structure CatRowH extends CatRow where
  p_perm_holm : ℚ
deriving DecidableEq

/-- `DataFrame.round(6)` on one result row: every float column is rounded,
the integer and string columns are unchanged. -/
def roundCatRow (r : CatRow) : CatRow :=
  { r with mean_with := pyRound6 r.mean_with, mean_baseline := pyRound6 r.mean_baseline
           t_stat := pyRound6 r.t_stat, p_perm := round6 r.p_perm
           cohen_d := pyRound6 r.cohen_d }

/-- The category loop of `show_category_ttests` (wrapper.py, lines 154-176):
for each category, take its top-time group; when both the group and the
baseline have at least 5 observations, run `ttest_two_samples` against the
baseline and append a row recording sizes, means, the t statistic, the
permutation p-value and the effect size `cohenD`. -/
def buildCatRows (df : List Row) (topTimes : List String) (returnCol : String)
    (numPerms : ℤ) (sqrtFn : ℚ → ℚ) (shuffler : ℕ → List ℚ → List ℚ)
    (pClassic : PyFloat) : List String → Except String (List CatRow)
  | [] => .ok []
  | c :: cs =>
    let g := catGroup df topTimes returnCol c
    let b := catBaseline df topTimes returnCol
    if 5 ≤ g.length ∧ 5 ≤ b.length then
      match ttest_two_samples g b numPerms sqrtFn shuffler pClassic with
      | .error e => .error e
      | .ok stats =>
        match buildCatRows df topTimes returnCol numPerms sqrtFn shuffler pClassic cs with
        | .error e => .error e
        | .ok rest =>
          .ok ({ category := c, n_with := g.length, n_baseline := b.length
                 mean_with := stats.Mean_x, mean_baseline := stats.Mean_y
                 t_stat := stats.t_stat, p_perm := stats.p_perm
                 cohen_d := cohenD sqrtFn g b stats.Mean_x stats.Mean_y } :: rest)
    else buildCatRows df topTimes returnCol numPerms sqrtFn shuffler pClassic cs

/-- Stable insertion keyed on the raw permutation p-value. -/
def inseRowLe (x : CatRow) : List CatRow → List CatRow
  | [] => [x]
  | y :: ys => if x.p_perm ≤ y.p_perm then x :: y :: ys else y :: inseRowLe x ys

/-- `res.sort_values("p_perm")`: sort the result rows by ascending raw
permutation p-value. -/
def sortRows (rs : List CatRow) : List CatRow := rs.foldr inseRowLe []

/-- The Holm-Bonferroni adjustment as implemented at wrapper.py, lines
188-190: sort the m raw p-values ascending and multiply the value of rank i
by `m - i`, capping at 1.  No forward cumulative-maximum step is applied. -/
def holmAdjust (ps : List ℚ) : List ℚ :=
  let sorted := sortQ ps
  let m := sorted.length
  sorted.enum.map (fun p => min 1 (p.2 * ((m : ℚ) - (p.1 : ℚ))))

/-- Attach Holm-adjusted p-values to the sorted rows (wrapper.py, lines
188-191): row of rank i gets `min(1, p_perm * (m - i))`. -/
def attachHolm (m : ℕ) (rs : List (ℕ × CatRow)) : List CatRowH :=
  rs.map (fun p => { toCatRow := p.2, p_perm_holm := min 1 (p.2.p_perm * ((m : ℚ) - (p.1 : ℚ))) })

/-- `show_category_ttests` (wrapper.py, lines 134-211): build the qualifying
per-category rows, raise when none qualifies, round to 6 decimals, sort by
raw permutation p-value, attach Holm-adjusted p-values, and return the rows
together with the categories whose adjusted p-value is below alpha. -/
def show_category_ttests (df : List Row) (topTimes categories : List String)
    (returnCol : String) (numPerms : ℤ) (sqrtFn : ℚ → ℚ)
    (shuffler : ℕ → List ℚ → List ℚ) (pClassic : PyFloat) (alpha : ℚ) :
    Except String (List CatRowH × List String) :=
  match buildCatRows df topTimes returnCol numPerms sqrtFn shuffler pClassic categories with
  | .error e => .error e
  | .ok rows =>
    if rows.isEmpty then
      .error "ValueError: No category had at least 5 observations in both groups"
    else
      let sorted := sortRows (rows.map roundCatRow)
      let resH := attachHolm sorted.length sorted.enum
      .ok (resH, (resH.filter (fun r => decide (r.p_perm_holm < alpha))).map (·.category))

/-! ### Confidence intervals (calculate.py, lines 91-152) -/

/-- The fields produced by `_classic_ci` / `_bootstrap_ci`. -/
structure CIVals where
  mean : PyFloat
  ci_lower : PyFloat
  ci_upper : PyFloat
  n_obs : ℕ
deriving DecidableEq

/-- `_classic_ci(arr)` (calculate.py, lines 104-113): the z-interval for the
mean; all fields NaN when there are fewer than 2 observations.  `z`, the
normal quantile `norm.ppf(1 - alpha/2)` computed by scipy, is an oracle
input. -/
def classic_ci (z : ℚ) (sqrtFn : ℚ → ℚ) (arr : List ℚ) : CIVals :=
  if arr.length < 2 then { mean := .nan, ci_lower := .nan, ci_upper := .nan, n_obs := arr.length }
  else
    let m := pyMean arr
    let s := pySqrt sqrtFn (pyVar arr)
    let half := pyDiv (pyMul (.fin z) s) (pySqrt sqrtFn (.fin (arr.length : ℚ)))
    { mean := m, ci_lower := pySub m half, ci_upper := pyAdd m half, n_obs := arr.length }

/-- `_bootstrap_ci(arr)` (calculate.py, lines 115-123): percentile bootstrap
CI for the mean; all fields NaN when the array is empty.  The resampling
`np.random.choice(arr, (n_bootstrap, n))` is the oracle `choice`, giving the
value drawn at resample `i`, position `j`. -/
def bootstrap_ci (choice : ℕ → ℕ → ℚ) (nBootstrap : ℕ) (confidence : ℚ)
    (arr : List ℚ) : CIVals :=
  if arr.length = 0 then { mean := .nan, ci_lower := .nan, ci_upper := .nan, n_obs := 0 }
  else
    let n := arr.length
    let bootMeans := (List.range nBootstrap).map (fun i =>
      ((List.range n).map (fun j => choice i j)).sum / (n : ℚ))
    let alpha := 1 - confidence
    { mean := pyMean arr
      ci_lower := npQuantile bootMeans (alpha / 2)
      ci_upper := npQuantile bootMeans (1 - alpha / 2)
      n_obs := n }

/-- One row of the `confidence_intervals` output. -/
structure CIRow where
  group : String
  series : String
  method : String
  ci : CIVals
deriving DecidableEq

/-- `confidence_intervals` (calculate.py, lines 91-152): for each of the
three groups (with news, without news, all top-time rows) and for each
requested column, append one classical and one bootstrap interval row.  The
final `DataFrame.round(4).sort_values(...)` is display formatting and is out
of the modelled core. -/
def confidence_intervals (df : List Row) (topTimes : List String)
    (cols : List String) (confidence : ℚ) (z : ℚ) (sqrtFn : ℚ → ℚ)
    (choice : ℕ → ℕ → ℚ) (nBootstrap : ℕ) : List CIRow :=
  let masks : List (String × (Row → Bool)) :=
    [("With News", fun r => topTimes.contains r.time && decide (0 < r.event_count)),
     ("Without News", fun r => topTimes.contains r.time && decide (r.event_count = 0)),
     ("All Times", fun r => topTimes.contains r.time)]
  masks.flatMap (fun gm =>
    cols.flatMap (fun c =>
      let data := (df.filter gm.2).filterMap (fun r => r.vals c)
      [{ group := gm.1, series := c, method := "Classical", ci := classic_ci z sqrtFn data },
       { group := gm.1, series := c, method := "Bootstrap", ci := bootstrap_ci choice nBootstrap confidence data }]))

/-! ### Priority-vs-outcome chi-square (wrapper.py, lines 214-269) -/

/-- `News_Prio` of one row (wrapper.py, lines 232-239): the maximum priority
among that row's active tracked categories, `none` (NaN) when none is
active. -/
def newsPrio (prioMap : List (String × ℤ)) (r : Row) : Option ℤ :=
  ((prioMap.filter (fun p => decide (0 < r.cat p.1))).map (·.2)).max?

/-- The binarization threshold (wrapper.py, lines 242-243): the median of
the magnitude column over ALL rows of the target time slots when the caller
asks for "median" (`thr = none`), the given constant otherwise.  Note the
median is taken before the rows without any prioritized category are
dropped. -/
def priorityThreshold (df : List Row) (topTimes : List String)
    (returnCol : String) (thr : Option ℚ) : PyFloat :=
  match thr with
  | some t => .fin t
  | none => pdMedian ((targetRows df topTimes).filterMap (fun r => r.vals returnCol))

/-- `HighAbsRet` of one row (wrapper.py, line 244): 1 when the magnitude is
at least the threshold, else 0; a NaN magnitude or threshold compares
false. -/
def highFlag (thr : PyFloat) (returnCol : String) (r : Row) : ℚ :=
  match r.vals returnCol, thr with
  | some v, .fin t => if t ≤ v then 1 else 0
  | _, _ => 0

/-- Stable insertion for integer priorities. -/
def insertZ (x : ℤ) : List ℤ → List ℤ
  | [] => [x]
  | y :: ys => if x ≤ y then x :: y :: ys else y :: insertZ x ys

/-- Sorted distinct priorities, `sorted(rows["News_Prio"].unique())`. -/
def sortedPrios (l : List ℤ) : List ℤ := l.dedup.foldr insertZ []

/-- The binary-outcome groups handed to `chi2_independence` (wrapper.py,
lines 245-251): compute every target-slot row's flag against the threshold,
then drop the rows without a prioritized category, and group the flags by
priority level in ascending order. -/
def priorityGroups (df : List Row) (topTimes : List String)
    (prioMap : List (String × ℤ)) (returnCol : String) (thr : Option ℚ) :
    List (List ℚ) :=
  let rows := targetRows df topTimes
  let t := priorityThreshold df topTimes returnCol thr
  let kept := rows.filter (fun r => (newsPrio prioMap r).isSome)
  let prios := sortedPrios (kept.filterMap (newsPrio prioMap))
  prios.map (fun p =>
    (kept.filter (fun r => decide (newsPrio prioMap r = some p))).map (highFlag t returnCol))

/-- `show_priority_return_chi2` (wrapper.py, lines 214-269): prepare the
priority groups and run `chi2_independence` on them. -/
def show_priority_return_chi2 (df : List Row) (topTimes : List String)
    (prioMap : List (String × ℤ)) (returnCol : String) (thr : Option ℚ)
    (pClassic : PyFloat) (numPerms : ℤ) (shuffler : ℕ → List ℚ → List ℚ) :
    Except String Chi2Result :=
  chi2_independence (priorityGroups df topTimes prioMap returnCol thr)
    pClassic numPerms shuffler

/-! ### Supporting lemmas -/

/-- Any pool state in the shuffle sequence is a permutation of the initial
pool, provided every shuffle permutes its input. -/
theorem poolSeq_perm (shuffler : ℕ → List ℚ → List ℚ)
    (hsh : ∀ j xs, (shuffler j xs).Perm xs) (flat : List ℚ) :
    ∀ i, (poolSeq shuffler flat i).Perm flat
  | 0 => hsh 0 flat
  | i + 1 => (hsh (i + 1) (poolSeq shuffler flat i)).trans (poolSeq_perm shuffler hsh flat i)

/-- Splitting a pool of total length `sizes.sum` at the cumulative sizes
yields chunks of exactly those lengths, covering the pool contiguously in
order. -/
theorem npSplitSizes_spec : ∀ (sizes : List ℕ) (xs : List ℚ), sizes ≠ [] →
    xs.length = sizes.sum →
    (npSplitSizes xs sizes).map List.length = sizes
    ∧ (npSplitSizes xs sizes).flatten = xs
  | [], _, h, _ => absurd rfl h
  | [s], xs, _, hlen => by
    simp only [List.sum_cons, List.sum_nil, Nat.add_zero] at hlen
    simp [npSplitSizes, hlen]
  | s :: m :: ns, xs, _, hlen => by
    have hlen' : (xs.drop s).length = (m :: ns).sum := by
      simp only [List.sum_cons] at hlen ⊢
      simp only [List.length_drop]
      omega
    have ih := npSplitSizes_spec (m :: ns) (xs.drop s) (by simp) hlen'
    have hs : s ≤ xs.length := by
      simp only [List.sum_cons] at hlen; omega
    refine ⟨?_, ?_⟩
    · simp only [npSplitSizes, List.map_cons, List.length_take, ih.1]
      simp only [min_eq_left hs]
    · simp only [npSplitSizes, List.flatten_cons, ih.2]
      exact List.take_append_drop s xs

/-- The value `permutation_pvalue` returns on success is the hit count over
the sample count. -/
theorem perm_pvalue_ok (groups : List (List ℚ)) (statFn : List (List ℚ) → PyFloat)
    (numSamples : ℤ) (twoSided : Bool) (shuffler : ℕ → List ℚ → List ℚ) (p : ℚ)
    (hok : permutation_pvalue groups statFn numSamples twoSided shuffler = .ok p) :
    numSamples ≠ 0 ∧
    p = (((List.range numSamples.toNat).countP (fun i =>
        let t := statFn (permIterGroups groups shuffler i)
        let tObs := statFn groups
        if twoSided then pyGe (pyAbs t) (pyAbs tObs) else pyGe t tObs) : ℕ) : ℚ)
      / (numSamples : ℚ) := by
  unfold permutation_pvalue at hok
  by_cases hg : groups.isEmpty
  · simp [hg] at hok
  · simp only [hg, Bool.false_eq_true, if_false] at hok
    by_cases hn : numSamples = 0
    · simp [hn] at hok
    · simp only [hn, if_false, Except.ok.injEq] at hok
      exact ⟨hn, hok.symm⟩

/-- Bounds for the successful result of `permutation_pvalue`
(shared helper). -/
theorem perm_pvalue_bounds (groups : List (List ℚ)) (statFn : List (List ℚ) → PyFloat)
    (numSamples : ℤ) (twoSided : Bool) (shuffler : ℕ → List ℚ → List ℚ) (p : ℚ)
    (hn : 1 ≤ numSamples)
    (hok : permutation_pvalue groups statFn numSamples twoSided shuffler = .ok p) :
    0 ≤ p ∧ p ≤ 1 := by
  obtain ⟨-, hp⟩ := perm_pvalue_ok groups statFn numSamples twoSided shuffler p hok
  set hits := (List.range numSamples.toNat).countP _ with hhits
  have hle : hits ≤ numSamples.toNat := by
    calc hits ≤ (List.range numSamples.toNat).length := List.countP_le_length _
    _ = numSamples.toNat := List.length_range _
  have hnq : (0 : ℚ) < (numSamples : ℚ) := by exact_mod_cast hn.trans_lt' (by norm_num)
  have hcast : ((numSamples.toNat : ℕ) : ℚ) = (numSamples : ℚ) := by
    exact_mod_cast congrArg (fun z : ℤ => (z : ℚ)) (Int.toNat_of_nonneg (by omega))
  constructor
  · rw [hp]
    positivity
  · rw [hp, div_le_one hnq, ← hcast]
    exact_mod_cast hle

/-- `permutation_pvalue` succeeds whenever the group list is nonempty and the
sample count is nonzero. -/
theorem perm_pvalue_isOk (groups : List (List ℚ)) (statFn : List (List ℚ) → PyFloat)
    (numSamples : ℤ) (twoSided : Bool) (shuffler : ℕ → List ℚ → List ℚ)
    (hne : groups ≠ []) (hn : numSamples ≠ 0) :
    ∃ p, permutation_pvalue groups statFn numSamples twoSided shuffler = .ok p := by
  unfold permutation_pvalue
  have hg : groups.isEmpty = false := by
    cases groups with
    | nil => exact absurd rfl hne
    | cons a l => rfl
  simp only [hg, Bool.false_eq_true, if_false, hn, if_false]
  exact ⟨_, rfl⟩

/-! ### Claim C9 -/

/-- C9: in every permutation iteration, the reshuffled groups are contiguous
chunks of the shuffled pool whose sizes equal the original group sizes in the
original group order; consequently the sum of group sizes after the shuffle
equals the sum before it, for every iteration and every input GroupSet. -/
theorem perm_iteration_partition (groups : List (List ℚ))
    (shuffler : ℕ → List ℚ → List ℚ)
    (hsh : ∀ j xs, (shuffler j xs).Perm xs) (hne : groups ≠ []) (i : ℕ) :
    (permIterGroups groups shuffler i).map List.length = groups.map List.length
    ∧ (permIterGroups groups shuffler i).flatten = poolSeq shuffler groups.flatten i
    ∧ ((permIterGroups groups shuffler i).map List.length).sum
        = (groups.map List.length).sum := by
  have hpool : (poolSeq shuffler groups.flatten i).length = (groups.map List.length).sum := by
    rw [(poolSeq_perm shuffler hsh groups.flatten i).length_eq]
    exact List.length_flatten groups
  have hsz : groups.map List.length ≠ [] := by
    cases groups with
    | nil => exact absurd rfl hne
    | cons a l => simp
  obtain ⟨h1, h2⟩ := npSplitSizes_spec (groups.map List.length)
    (poolSeq shuffler groups.flatten i) hsz hpool
  unfold permIterGroups
  exact ⟨h1, h2, by rw [h1]⟩

/-- Witness for C9 at a concrete input: two groups of sizes 2 and 1, the
shuffle reversing the pool, iteration 1. -/
theorem perm_iteration_partition_witness :
    (permIterGroups [[1, 2], [3]] (fun _ xs => xs.reverse) 1).map List.length
        = ([[1, 2], [3]] : List (List ℚ)).map List.length
    ∧ (permIterGroups [[1, 2], [3]] (fun _ xs => xs.reverse) 1).flatten
        = poolSeq (fun _ xs => xs.reverse) ([[1, 2], [3]] : List (List ℚ)).flatten 1
    ∧ ((permIterGroups [[1, 2], [3]] (fun _ xs => xs.reverse) 1).map List.length).sum
        = (([[1, 2], [3]] : List (List ℚ)).map List.length).sum :=
  perm_iteration_partition [[1, 2], [3]] (fun _ xs => xs.reverse)
    (fun _ xs => xs.reverse_perm) (by simp) 1

/-! ### Claim C5 -/

/-- C5: for every GroupSet, every statistic function, and every
`num_samples ≥ 1`, a value returned by `permutation_pvalue` lies in the
closed interval `[0, 1]`, being the ratio of the hit count to the number of
samples. -/
theorem perm_pvalue_in_unit_interval (groups : List (List ℚ))
    (statFn : List (List ℚ) → PyFloat) (numSamples : ℤ) (twoSided : Bool)
    (shuffler : ℕ → List ℚ → List ℚ) (p : ℚ) (hn : 1 ≤ numSamples)
    (hok : permutation_pvalue groups statFn numSamples twoSided shuffler = .ok p) :
    (0 ≤ p ∧ p ≤ 1) ∧
    ∃ hits : ℕ, (hits : ℤ) ≤ numSamples ∧ p = (hits : ℚ) / (numSamples : ℚ) := by
  refine ⟨perm_pvalue_bounds groups statFn numSamples twoSided shuffler p hn hok, ?_⟩
  obtain ⟨-, hp⟩ := perm_pvalue_ok groups statFn numSamples twoSided shuffler p hok
  refine ⟨_, ?_, hp⟩
  calc ((List.range numSamples.toNat).countP _ : ℤ)
      ≤ ((List.range numSamples.toNat).length : ℤ) := by
        exact_mod_cast List.countP_le_length _
    _ = numSamples := by
        rw [List.length_range]
        exact Int.toNat_of_nonneg (by omega)

/-- Witness for C5 at a concrete input. -/
theorem perm_pvalue_in_unit_interval_witness :
    ∃ p, permutation_pvalue [[1], [2]] (fun _ => .fin 0) 2 false (fun _ xs => xs) = .ok p
      ∧ (0 ≤ p ∧ p ≤ 1) := by
  obtain ⟨p, hp⟩ := perm_pvalue_isOk [[1], [2]] (fun _ => .fin 0) 2 false
    (fun _ xs => xs) (by simp) (by norm_num)
  exact ⟨p, hp, (perm_pvalue_in_unit_interval [[1], [2]] (fun _ => .fin 0) 2 false
    (fun _ xs => xs) p (by norm_num) hp).1⟩

/-! ### Claim C2 -/

/-- C2 counterexample: `permutation_pvalue` called with
`num_samples = -3` returns the numeric value 0 instead of raising a
validation error (`range(-3)` is empty and `0 / -3` is `-0.0`). -/
theorem perm_pvalue_negative_samples_counterexample :
    permutation_pvalue [[5], [7]] (fun _ => .fin 0) (-3) false (fun _ xs => xs)
      = .ok 0 := by
  have h0 : ((-3 : ℤ)).toNat = 0 := rfl
  unfold permutation_pvalue
  norm_num [h0]

/-- C2 amended: `permutation_pvalue` performs no validation of
`num_samples`: for a nonempty group list, any `num_samples ≤ -1` yields the
numeric value 0 (the loop body runs zero times and `hits / num_samples`
is `-0.0`), and `num_samples = 0` raises `ZeroDivisionError` at the final
division — not an immediate validation error. -/
theorem perm_pvalue_no_numsamples_validation (groups : List (List ℚ))
    (statFn : List (List ℚ) → PyFloat) (twoSided : Bool)
    (shuffler : ℕ → List ℚ → List ℚ) (n : ℤ) (hne : groups ≠ []) :
    (n ≤ -1 → permutation_pvalue groups statFn n twoSided shuffler = .ok 0)
    ∧ (n = 0 → permutation_pvalue groups statFn n twoSided shuffler
        = .error "ZeroDivisionError: division by zero") := by
  have hg : groups.isEmpty = false := by
    cases groups with
    | nil => exact absurd rfl hne
    | cons a l => rfl
  constructor
  · intro hneg
    unfold permutation_pvalue
    have h0 : n.toNat = 0 := Int.toNat_eq_zero.mpr (by omega)
    have hn0 : ¬ n = 0 := by omega
    simp [hg, h0, hn0]
  · intro h0
    unfold permutation_pvalue
    simp [hg, h0]

/-- Witness for C2 amended, at a concrete nonempty GroupSet. -/
theorem perm_pvalue_no_numsamples_validation_witness :
    permutation_pvalue [[1], [2]] (fun _ => .fin 0) (-1) false (fun _ xs => xs) = .ok 0
    ∧ permutation_pvalue [[1], [2]] (fun _ => .fin 0) 0 false (fun _ xs => xs)
        = .error "ZeroDivisionError: division by zero" :=
  ⟨(perm_pvalue_no_numsamples_validation [[1], [2]] (fun _ => .fin 0) false
      (fun _ xs => xs) (-1) (by simp)).1 (by norm_num),
   (perm_pvalue_no_numsamples_validation [[1], [2]] (fun _ => .fin 0) false
      (fun _ xs => xs) 0 (by simp)).2 rfl⟩

/-! ### Claim C4 -/

/-- C4: the Holm adjustment sorts the m raw p-values ascending and sets the
rank-i adjusted value to `min(1, raw * (m - i))` with no forward
cumulative-maximum step; in particular `[0.01, 0.02, 0.20]` yields exactly
`[0.03, 0.04, 0.20]`, and the absence of the monotonicity pass is visible on
`[0.01, 0.5, 0.5]`, whose adjusted sequence `[0.03, 1, 0.5]` is locally
decreasing (classic Holm would give `[0.03, 1, 1]`). -/
theorem holm_formula_examples :
    holmAdjust [1/100, 1/50, 1/5] = [3/100, 1/25, 1/5]
    ∧ holmAdjust [1/100, 1/2, 1/2] = [3/100, 1, 1/2] := by
  constructor <;>
    norm_num [holmAdjust, sortQ, insertLe, List.enum, List.enumFrom, min_def]

/-! ### Evaluation lemmas for the float model on finite values -/

theorem pyNeg_fin (a : ℚ) : pyNeg (.fin a) = .fin (-a) := rfl

theorem pyAdd_fin (a b : ℚ) : pyAdd (.fin a) (.fin b) = .fin (a + b) := rfl

theorem pySub_fin (a b : ℚ) : pySub (.fin a) (.fin b) = .fin (a - b) := by
  rw [show pySub (.fin a) (.fin b) = .fin (a + -b) from rfl, ← sub_eq_add_neg]

theorem pyMul_fin (a b : ℚ) : pyMul (.fin a) (.fin b) = .fin (a * b) := rfl

theorem pyDiv_fin (a b : ℚ) (hb : b ≠ 0) :
    pyDiv (.fin a) (.fin b) = .fin (a / b) := by
  simp [pyDiv, hb]

theorem pyGe_fin (a b : ℚ) : pyGe (.fin a) (.fin b) = decide (b ≤ a) := rfl

theorem pyAbs_fin (a : ℚ) : pyAbs (.fin a) = .fin |a| := rfl

theorem pySqrt_fin (sqrtFn : ℚ → ℚ) (q : ℚ) (h : ¬ q < 0) :
    pySqrt sqrtFn (.fin q) = .fin (sqrtFn q) := by
  simp [pySqrt, h]

theorem pyMean_eval (xs : List ℚ) (h : xs ≠ []) :
    pyMean xs = .fin (xs.sum / (xs.length : ℚ)) := by
  simp [pyMean, List.length_eq_zero, h]

theorem pyMean_cons (x : ℚ) (xs : List ℚ) :
    pyMean (x :: xs) = .fin ((x + xs.sum) / ((xs.length : ℚ) + 1)) := by
  rw [pyMean_eval _ (by simp)]
  congr 1
  push_cast [List.sum_cons, List.length_cons]
  ring_nf

theorem pyVar_eval (xs : List ℚ) (h : 2 ≤ xs.length) :
    pyVar xs = .fin ((xs.map (fun x => (x - xs.sum / (xs.length : ℚ)) ^ 2)).sum
      / ((xs.length : ℚ) - 1)) := by
  have : ¬ xs.length ≤ 1 := by omega
  simp [pyVar, this]

/-! ### Claim C3 -/

/-- Division of any float by NaN is NaN. -/
theorem pyDiv_nan (x : PyFloat) : pyDiv x .nan = .nan := by
  cases x <;> rfl

/-- Summing a list of float zeros from a finite accumulator returns the
accumulator. -/
theorem foldl_pyAdd_zero (l : List PyFloat) (q : ℚ) (h : ∀ x ∈ l, x = .fin 0) :
    l.foldl pyAdd (.fin q) = .fin q := by
  induction l generalizing q with
  | nil => rfl
  | cons a t ih =>
    have ha := h a (by simp)
    have : pyAdd (.fin q) a = .fin q := by
      subst ha; simp [pyAdd]
    simpa [this] using ih q (fun x hx => h x (by simp [hx]))

/-- `pySum` of a list of float zeros is zero. -/
theorem pySum_all_zero (l : List PyFloat) (h : ∀ x ∈ l, x = .fin 0) :
    pySum l = .fin 0 :=
  foldl_pyAdd_zero l 0 h

/-- When every group is a singleton, the total count equals the group
count. -/
theorem sum_lengths_all_one (l : List (List ℚ)) (h : ∀ g ∈ l, g.length = 1) :
    (l.map List.length).sum = l.length := by
  induction l with
  | nil => rfl
  | cons a t ih =>
    simp only [List.map_cons, List.sum_cons, List.length_cons,
      h a (by simp), ih (fun g hg => h g (by simp [hg]))]
    omega

/-- C3 counterexample: `anova_oneway([[0, 1], [2]])` — an input whose second
group has fewer than 2 observations — returns a numeric result
(F = 3, permutation p-value 1 with one identity permutation) instead of
raising a validation error. -/
theorem anova_accepts_short_group_counterexample :
    anova_oneway [[0, 1], [2]] (.fin 0) 1 (fun _ xs => xs)
      = .ok { f_statistic := .fin 3, p_parametric := .fin 0, p_perm := 1 } := by
  have hf : fStatistic [[0, 1], [2]] = .fin 3 := by
    norm_num [fStatistic, pySum, pyMean_cons, pyAdd_fin, pySub_fin, pyMul_fin, pyDiv_fin]
  have hiter : permIterGroups [[0, 1], [2]] (fun _ xs => xs) 0 = [[0, 1], [2]] := by
    norm_num [permIterGroups, poolSeq, npSplitSizes]
  unfold anova_oneway permutation_pvalue
  norm_num [List.countP, List.countP.go, hiter, hf, pyGe_fin]

/-- C3 amended: `anova_oneway` performs no precondition validation of its
own.  Whenever it receives at least 2 groups and a positive permutation
count it returns a result rather than raising — even when some group has
fewer than 2 observations — and when every group is a singleton (so `N = k`)
the F statistic it reports is NaN, a degenerate value produced by the 0/0
division, not a validation error.  (The explicit group-size validation of
the spec lives in the caller `show_category_anova`, which drops groups with
fewer than 2 observations and raises when fewer than 2 groups survive.) -/
theorem anova_no_validation (groups : List (List ℚ)) (pClassic : PyFloat)
    (numPerms : ℤ) (shuffler : ℕ → List ℚ → List ℚ)
    (hk : 2 ≤ groups.length) (hn : 1 ≤ numPerms) :
    (∃ res, anova_oneway groups pClassic numPerms shuffler = .ok res)
    ∧ ((∀ g ∈ groups, g.length = 1) → fStatistic groups = .nan) := by
  constructor
  · have hne : groups ≠ [] := by
      intro h; rw [h] at hk; simp at hk
    obtain ⟨p, hp⟩ := perm_pvalue_isOk groups fStatistic numPerms false shuffler hne
      (by omega)
    refine ⟨{ f_statistic := fStatistic groups, p_parametric := pClassic, p_perm := p }, ?_⟩
    unfold anova_oneway
    have : ¬ groups.length < 2 := by omega
    simp only [this, if_false, hp]
  · intro hall
    have hW : pySum (groups.map (fun a =>
        pySum (a.map (fun x => pyMul (pySub (.fin x) (pyMean a)) (pySub (.fin x) (pyMean a))))))
        = .fin 0 := by
      apply pySum_all_zero
      intro x hx
      simp only [List.mem_map] at hx
      obtain ⟨a, ha, rfl⟩ := hx
      obtain ⟨v, rfl⟩ := List.length_eq_one.mp (hall a ha)
      norm_num [pySum, pyMean_cons, pySub_fin, pyAdd_fin, pyMul_fin]
    have hN : ((groups.map List.length).sum : ℤ) = (groups.length : ℤ) := by
      exact_mod_cast sum_lengths_all_one groups hall
    unfold fStatistic
    simp only [hW, hN]
    have h0 : ((groups.length : ℤ) - (groups.length : ℤ) : ℤ) = 0 := by omega
    rw [h0]
    have : pyDiv (.fin 0) (.fin ((0 : ℤ) : ℚ)) = .nan := by
      norm_num [pyDiv]
    rw [this, pyDiv_nan]

/-- Witness for C3 amended at a concrete input: two singleton groups. -/
theorem anova_no_validation_witness :
    (∃ res, anova_oneway [[0], [9]] (.fin 0) 1 (fun _ xs => xs) = .ok res)
    ∧ ((∀ g ∈ ([[0], [9]] : List (List ℚ)), g.length = 1)
        → fStatistic [[0], [9]] = .nan) :=
  anova_no_validation [[0], [9]] (.fin 0) 1 (fun _ xs => xs) (by norm_num) (by norm_num)

/-! ### Claim C1 -/

/-- Concrete values of the square-root oracle at the perfect squares used by
the counterexamples (`ratSqrt` is exact there, as is the machine square
root). -/
theorem ratSqrt_25 : ratSqrt 25 = 5 := by
  have h1 : natSqrtLin 25 = 5 := by decide
  have h2 : natSqrtLin 1 = 1 := by decide
  norm_num [ratSqrt, show Int.toNat 25 = 25 from rfl, show Int.toNat 1 = 1 from rfl, h1, h2]

theorem ratSqrt_1 : ratSqrt 1 = 1 := by
  have h2 : natSqrtLin 1 = 1 := by decide
  norm_num [ratSqrt, Int.toNat_ofNat, h2]

theorem ratSqrt_four_ninths : ratSqrt (4 / 9) = 2 / 3 := by
  have h1 : natSqrtLin 4 = 2 := by decide
  have h2 : natSqrtLin 9 = 3 := by decide
  norm_num [ratSqrt, show Int.toNat 4 = 4 from rfl, h1, h2]

theorem ratSqrt_two_fifths : ratSqrt (2 / 5) = 1 / 2 := by
  have h1 : natSqrtLin 2 = 1 := by decide
  have h2 : natSqrtLin 5 = 2 := by decide
  norm_num [ratSqrt, show Int.toNat 2 = 2 from rfl, h1, h2]

/-- C1 counterexample: for `x = [1, 7]`, `y = [-4, 4]` (observed Welch
t = 4/5) and a single permutation that swaps the two groups (reshuffled
t = -4/5, so `abs(t) >= abs(t_obs)` holds), `ttest_two_samples` reports a
permutation p-value of 0 — the iteration is NOT counted as a hit — whereas
the two-sided rule of the claim counts it and yields 1.  Every square root
involved is exact (`sqrt 25 = 5`). -/
theorem ttest_perm_two_sided_counterexample :
    (ttest_two_samples [1, 7] [-4, 4] 1 ratSqrt (fun _ _ => [-4, 4, 1, 7]) (.fin 0)).map
      (fun r => r.p_perm) = .ok 0
    ∧ permutation_pvalue [[1, 7], [-4, 4]] (ttestStatFn ratSqrt) 1 true
        (fun _ _ => [-4, 4, 1, 7]) = .ok 1 := by
  have hobs : ttestStatFn ratSqrt [[1, 7], [-4, 4]] = .fin (4 / 5) := by
    norm_num [ttestStatFn, ttestStat, pyMean_cons, pyVar_eval, pyAdd_fin, pySub_fin,
      pyDiv_fin, pySqrt_fin, ratSqrt_25]
  have hiter : permIterGroups [[1, 7], [-4, 4]] (fun _ _ => [-4, 4, 1, 7]) 0
      = [[-4, 4], [1, 7]] := by
    norm_num [permIterGroups, poolSeq, npSplitSizes]
  have hshuf : ttestStatFn ratSqrt [[-4, 4], [1, 7]] = .fin (-(4 / 5)) := by
    norm_num [ttestStatFn, ttestStat, pyMean_cons, pyVar_eval, pyAdd_fin, pySub_fin,
      pyDiv_fin, pySqrt_fin, ratSqrt_25]
  constructor
  · unfold ttest_two_samples permutation_pvalue
    norm_num [List.countP, List.countP.go, hiter, hobs, hshuf, pyGe_fin, Except.map]
  · unfold permutation_pvalue
    norm_num [List.countP, List.countP.go, hiter, hobs, hshuf, pyGe_fin, pyAbs_fin]

/-- C1 amended: the permutation p-value computed by `ttest_two_samples` is
one-sided in the signed t statistic: an iteration counts as a hit exactly
when the reshuffled t is greater than or equal to the observed t
(`ttest_two_samples` leaves the `two_sided` parameter of
`permutation_pvalue` at its default `False`). -/
theorem ttest_perm_pvalue_one_sided (x y : List ℚ) (numPerms : ℤ)
    (sqrtFn : ℚ → ℚ) (shuffler : ℕ → List ℚ → List ℚ) (pClassic : PyFloat)
    (r : TTestResult)
    (hok : ttest_two_samples x y numPerms sqrtFn shuffler pClassic = .ok r) :
    r.p_perm = (((List.range numPerms.toNat).countP (fun i =>
        pyGe (ttestStatFn sqrtFn (permIterGroups [x, y] shuffler i))
             (ttestStatFn sqrtFn [x, y])) : ℕ) : ℚ) / (numPerms : ℚ) := by
  unfold ttest_two_samples at hok
  cases hperm : permutation_pvalue [x, y] (ttestStatFn sqrtFn) numPerms false shuffler with
  | error e => rw [hperm] at hok; exact absurd hok (by simp)
  | ok p =>
    rw [hperm] at hok
    obtain ⟨-, hp⟩ := perm_pvalue_ok [x, y] (ttestStatFn sqrtFn) numPerms false shuffler
      p hperm
    have hr : r.p_perm = p := by
      cases hok
      rfl
    rw [hr, hp]
    simp only [Bool.false_eq_true, if_false]

/-- Witness for C1 amended at a concrete input: the counterexample data with
two identity permutations; both iterations are hits (t = t_obs), so the
returned permutation p-value is 1 and equals the one-sided hit ratio. -/
theorem ttest_perm_pvalue_one_sided_witness :
    ∃ r, ttest_two_samples [1, 7] [-4, 4] 2 ratSqrt (fun _ xs => xs) (.fin 0) = .ok r
    ∧ r.p_perm = (((List.range (2 : ℤ).toNat).countP (fun i =>
        pyGe (ttestStatFn ratSqrt (permIterGroups [[1, 7], [-4, 4]] (fun _ xs => xs) i))
             (ttestStatFn ratSqrt [[1, 7], [-4, 4]])) : ℕ) : ℚ) / ((2 : ℤ) : ℚ) := by
  obtain ⟨p, hp⟩ := perm_pvalue_isOk [[1, 7], [-4, 4]] (ttestStatFn ratSqrt) 2 false
    (fun _ xs => xs) (by simp) (by norm_num)
  have hok : ttest_two_samples [1, 7] [-4, 4] 2 ratSqrt (fun _ xs => xs) (.fin 0)
      = .ok { N_x := 2, N_y := 2, Mean_x := pyMean [1, 7], Mean_y := pyMean [-4, 4],
              t_stat := ttestStat ratSqrt [1, 7] [-4, 4], p_classic := .fin 0,
              p_perm := p } := by
    unfold ttest_two_samples
    rw [hp]
    rfl
  exact ⟨_, hok, ttest_perm_pvalue_one_sided [1, 7] [-4, 4] 2 ratSqrt
    (fun _ xs => xs) (.fin 0) _ hok⟩

/-! ### Claim C8 -/

/-- Length of a flatMap whose images are all two-element lists. -/
theorem length_flatMap_two {α β : Type} (l : List α) (f g : α → β) :
    (l.flatMap (fun a => [f a, g a])).length = 2 * l.length := by
  induction l with
  | nil => rfl
  | cons a t ih =>
    simp only [List.flatMap_cons, List.length_append, ih, List.length_cons,
      List.length_nil]
    omega

/-- C8: the classical confidence interval for a sample of fewer than 2
observations, and the bootstrap percentile interval for an empty sample,
report missing values (NaN) for the mean and both bounds rather than raising
an error, and the `confidence_intervals` loop still emits its two rows for
every group and column (3 groups x 2 methods per column), so processing of
the other groups and columns continues. -/
theorem ci_small_samples_missing_values :
    (∀ (z : ℚ) (sqrtFn : ℚ → ℚ) (arr : List ℚ), arr.length < 2 →
      classic_ci z sqrtFn arr
        = { mean := .nan, ci_lower := .nan, ci_upper := .nan, n_obs := arr.length })
    ∧ (∀ (choice : ℕ → ℕ → ℚ) (nBootstrap : ℕ) (confidence : ℚ),
      bootstrap_ci choice nBootstrap confidence []
        = { mean := .nan, ci_lower := .nan, ci_upper := .nan, n_obs := 0 })
    ∧ (∀ (df : List Row) (topTimes cols : List String) (confidence z : ℚ)
        (sqrtFn : ℚ → ℚ) (choice : ℕ → ℕ → ℚ) (nBootstrap : ℕ),
      (confidence_intervals df topTimes cols confidence z sqrtFn choice nBootstrap).length
        = 6 * cols.length) := by
  refine ⟨?_, ?_, ?_⟩
  · intro z sqrtFn arr h
    simp [classic_ci, h]
  · intro choice nBootstrap confidence
    simp [bootstrap_ci]
  · intro df topTimes cols confidence z sqrtFn choice nBootstrap
    unfold confidence_intervals
    simp only [List.flatMap_cons, List.flatMap_nil, List.length_append, List.length_nil,
      length_flatMap_two]
    omega

/-- Witness for C8 at concrete inputs: a one-element sample for the classical
interval and the empty sample for the bootstrap interval. -/
theorem ci_small_samples_missing_values_witness :
    classic_ci 2 (fun q => q) [5]
      = { mean := .nan, ci_lower := .nan, ci_upper := .nan, n_obs := 1 }
    ∧ bootstrap_ci (fun _ _ => 0) 3 (9 / 10) []
      = { mean := .nan, ci_lower := .nan, ci_upper := .nan, n_obs := 0 } :=
  ⟨ci_small_samples_missing_values.1 2 (fun q => q) [5] (by norm_num),
   (ci_small_samples_missing_values.2.1 (fun _ _ => 0) 3 (9 / 10))⟩

/-! ### Claim C10 -/

/-- A concrete data frame for the threshold-ordering demonstration: five
top-time rows, three with no active category (magnitudes 0, 0, 0) and two
with category a active (magnitudes 10 and 20). -/
def mkRow10 (catA : ℚ) (v : ℚ) : Row :=
  { time := "t", event_count := catA
    cat := fun c => if c = "a" then catA else 0
    vals := fun s => if s = "ret" then some v else none }

def exDf10 : List Row :=
  [mkRow10 0 0, mkRow10 0 0, mkRow10 0 0, mkRow10 1 10, mkRow10 1 20]

def exPrio : List (String × ℤ) := [("a", 1)]

/-- C10: with the "median" threshold, `show_priority_return_chi2` binarizes
against the median of the magnitude column over ALL rows of the target time
slots — including the rows with no prioritized category — and only after the
binary outcome is computed are the unprioritized rows dropped.  On the
concrete frame `exDf10` the threshold is 0 (the median over all five rows),
so both prioritized rows are flagged 1; had the unprioritized rows been
dropped first, the median would be 15 and the flags would be `[0, 1]`
(obtained here by passing 15 as an explicit threshold). -/
theorem priority_chi2_median_over_all_rows :
    (∀ (df : List Row) (topTimes : List String) (returnCol : String),
      priorityThreshold df topTimes returnCol none
        = pdMedian ((targetRows df topTimes).filterMap (fun r => r.vals returnCol)))
    ∧ (∀ (df : List Row) (topTimes : List String) (prioMap : List (String × ℤ))
        (returnCol : String) (pClassic : PyFloat) (numPerms : ℤ)
        (shuffler : ℕ → List ℚ → List ℚ),
      show_priority_return_chi2 df topTimes prioMap returnCol none pClassic numPerms shuffler
        = chi2_independence (priorityGroups df topTimes prioMap returnCol none)
            pClassic numPerms shuffler)
    ∧ priorityThreshold exDf10 ["t"] "ret" none = .fin 0
    ∧ pdMedian (((targetRows exDf10 ["t"]).filter
        (fun r => (newsPrio exPrio r).isSome)).filterMap (fun r => r.vals "ret"))
        = .fin 15
    ∧ priorityGroups exDf10 ["t"] exPrio "ret" none = [[1, 1]]
    ∧ priorityGroups exDf10 ["t"] exPrio "ret" (some 15) = [[0, 1]] := by
  refine ⟨fun _ _ _ => rfl, fun _ _ _ _ _ _ _ => rfl, ?_, ?_, ?_, ?_⟩
  · norm_num [priorityThreshold, targetRows, exDf10, mkRow10, pdMedian, sortQ, insertLe,
      List.filterMap_cons, List.filterMap_nil, List.filter_cons, List.filter_nil, List.foldr_cons, List.foldr_nil, List.getD_cons_zero, List.getD_cons_succ]
  · norm_num [targetRows, exDf10, exPrio, mkRow10, newsPrio, pdMedian, sortQ, insertLe,
      List.filterMap_cons, List.filterMap_nil, List.filter_cons, List.filter_nil, List.foldr_cons, List.foldr_nil, List.getD_cons_zero, List.getD_cons_succ]
  · norm_num [priorityGroups, priorityThreshold, targetRows, exDf10, exPrio, mkRow10,
      newsPrio, pdMedian, sortQ, insertLe, sortedPrios, insertZ, highFlag,
      List.filterMap_cons, List.filterMap_nil, List.filter_cons, List.filter_nil, List.foldr_cons, List.foldr_nil, List.getD_cons_zero, List.getD_cons_succ]
  · norm_num [priorityGroups, priorityThreshold, targetRows, exDf10, exPrio, mkRow10,
      newsPrio, sortedPrios, insertZ, highFlag,
      List.filterMap_cons, List.filterMap_nil, List.filter_cons, List.filter_nil, List.foldr_cons, List.foldr_nil, List.getD_cons_zero, List.getD_cons_succ]

/-! ### Claim C7 -/

theorem ratSqrt_9 : ratSqrt 9 = 3 := by
  have h1 : natSqrtLin 9 = 3 := by decide
  have h2 : natSqrtLin 1 = 1 := by decide
  norm_num [ratSqrt, show Int.toNat 9 = 9 from rfl, show Int.toNat 1 = 1 from rfl, h1, h2]

theorem ratSqrt_4 : ratSqrt 4 = 2 := by
  have h1 : natSqrtLin 4 = 2 := by decide
  have h2 : natSqrtLin 1 = 1 := by decide
  norm_num [ratSqrt, show Int.toNat 4 = 4 from rfl, show Int.toNat 1 = 1 from rfl, h1, h2]

theorem ratSqrt_18_5 : ratSqrt (18 / 5) = 2 := by
  have h1 : natSqrtLin 18 = 4 := by decide
  have h2 : natSqrtLin 5 = 2 := by decide
  norm_num [ratSqrt, show Int.toNat 18 = 18 from rfl, h1, h2]

/-- C7 amended: the effect size the code annotates is the difference of
means divided by the square root of the unweighted mean of the two sample
variances; this agrees with the pooled-standard-deviation formula exactly
when the two groups have equal sizes. -/
theorem cohen_equals_pooled_equal_sizes (sqrtFn : ℚ → ℚ) (x y : List ℚ)
    (h2 : 2 ≤ x.length) (hxy : x.length = y.length) :
    cohenD sqrtFn x y (pyMean x) (pyMean y) = specPooledCohenD sqrtFn x y := by
  obtain ⟨vx, hvx⟩ : ∃ v, pyVar x = .fin v := ⟨_, pyVar_eval x h2⟩
  obtain ⟨vy, hvy⟩ : ∃ v, pyVar y = .fin v := ⟨_, pyVar_eval y (hxy ▸ h2)⟩
  have hnq : (2 : ℚ) ≤ (x.length : ℚ) := by exact_mod_cast h2
  unfold cohenD specPooledCohenD
  rw [hvx, hvy, ← hxy]
  rw [pyAdd_fin, pyDiv_fin _ _ (by norm_num), pyMul_fin, pyMul_fin, pyAdd_fin,
    pyDiv_fin _ _ (by push_cast; intro hc; nlinarith)]
  have harg : (vx + vy) / 2
      = ((((x.length : ℤ) - 1 : ℤ) : ℚ) * vx + (((x.length : ℤ) - 1 : ℤ) : ℚ) * vy)
        / ((((x.length : ℤ) + (x.length : ℤ) - 2 : ℤ) : ℚ)) := by
    push_cast
    rw [div_eq_div_iff (by norm_num) (by nlinarith)]
    ring
  rw [harg]

/-- Witness for C7 amended: two groups of equal size 2. -/
theorem cohen_equals_pooled_equal_sizes_witness :
    cohenD ratSqrt [0, 1] [1, 3] (pyMean [0, 1]) (pyMean [1, 3])
      = specPooledCohenD ratSqrt [0, 1] [1, 3] :=
  cohen_equals_pooled_equal_sizes ratSqrt [0, 1] [1, 3] (by simp) (by simp)

/-- Rows for the C7 counterexample frame. -/
def mkRow7 (catA : ℚ) (ec : ℚ) (v : ℚ) : Row :=
  { time := "t", event_count := ec
    cat := fun c => if c = "a" then catA else 0
    vals := fun s => if s = "ret" then some v else none }

/-- The C7 counterexample frame: five top-time rows with category a active
(magnitudes 6, -6, 0, 0, 0: mean 0, sample variance 18) and fifteen
baseline rows with no news (magnitude 3: mean 3, sample variance 0). -/
def exDf7 : List Row :=
  [mkRow7 1 1 6, mkRow7 1 1 (-6), mkRow7 1 1 0, mkRow7 1 1 0, mkRow7 1 1 0]
    ++ List.replicate 15 (mkRow7 0 0 3)

/-- C7 counterexample: on `exDf7` the single qualifying category (5
observations, baseline 15) is annotated with effect size
`(0 - 3) / sqrt((18 + 0) / 2) = -1`, whereas the difference of means divided
by the pooled standard deviation is
`(0 - 3) / sqrt((4 * 18 + 14 * 0) / 18) = -3/2`.  Both square-root arguments
(9 and 4) are perfect squares, where `ratSqrt` coincides with the machine
square root. -/
theorem cohen_not_pooled_counterexample :
    (show_category_ttests exDf7 ["t"] ["a"] "ret" 1 ratSqrt (fun _ xs => xs)
        (.fin 0) (1 / 20)).map (fun out => out.1.map (fun r => r.cohen_d))
      = .ok [.fin (-1)]
    ∧ specPooledCohenD ratSqrt (catGroup exDf7 ["t"] "ret" "a")
        (catBaseline exDf7 ["t"] "ret") = .fin (-(3 / 2)) := by
  have hg : catGroup exDf7 ["t"] "ret" "a" = [6, -6, 0, 0, 0] := by
    norm_num [catGroup, exDf7, mkRow7, List.replicate, List.filter_cons, List.filter_nil,
      List.filterMap_cons, List.filterMap_nil, List.filter_append]
  have hbase : catBaseline exDf7 ["t"] "ret"
      = [3, 3, 3, 3, 3, 3, 3, 3, 3, 3, 3, 3, 3, 3, 3] := by
    norm_num [catBaseline, exDf7, mkRow7, List.replicate, List.filter_cons, List.filter_nil,
      List.filterMap_cons, List.filterMap_nil, List.filter_append]
  have hvg : pyVar [6, -6, 0, 0, 0] = .fin 18 := by
    rw [pyVar_eval _ (by simp)]
    norm_num
  have hvb : pyVar [3, 3, 3, 3, 3, 3, 3, 3, 3, 3, 3, 3, 3, 3, 3] = .fin 0 := by
    rw [pyVar_eval _ (by simp)]
    norm_num
  have hmg : pyMean [6, -6, 0, 0, 0] = .fin 0 := by
    rw [pyMean_eval _ (by simp)]
    norm_num
  have hmb : pyMean [3, 3, 3, 3, 3, 3, 3, 3, 3, 3, 3, 3, 3, 3, 3] = .fin 3 := by
    rw [pyMean_eval _ (by simp)]
    norm_num
  have htobs : ttestStat ratSqrt [6, -6, 0, 0, 0]
      [3, 3, 3, 3, 3, 3, 3, 3, 3, 3, 3, 3, 3, 3, 3] = .fin (-(3 / 2)) := by
    unfold ttestStat
    rw [hmg, hmb, hvg, hvb]
    norm_num [pySub_fin, pyDiv_fin, pyAdd_fin, pySqrt_fin, ratSqrt_18_5]
  have hstat : ttestStatFn ratSqrt [[6, -6, 0, 0, 0],
      [3, 3, 3, 3, 3, 3, 3, 3, 3, 3, 3, 3, 3, 3, 3]] = .fin (-(3 / 2)) := by
    unfold ttestStatFn
    simpa using htobs
  have hiter : permIterGroups [[6, -6, 0, 0, 0],
      [3, 3, 3, 3, 3, 3, 3, 3, 3, 3, 3, 3, 3, 3, 3]] (fun _ xs => xs) 0
      = [[6, -6, 0, 0, 0], [3, 3, 3, 3, 3, 3, 3, 3, 3, 3, 3, 3, 3, 3, 3]] := by
    norm_num [permIterGroups, poolSeq, npSplitSizes]
  have hperm : permutation_pvalue [[6, -6, 0, 0, 0],
      [3, 3, 3, 3, 3, 3, 3, 3, 3, 3, 3, 3, 3, 3, 3]] (ttestStatFn ratSqrt) 1 false
      (fun _ xs => xs) = .ok 1 := by
    unfold permutation_pvalue
    norm_num [List.countP, List.countP.go, hiter, hstat, pyGe_fin]
  have hok : ttest_two_samples [6, -6, 0, 0, 0]
      [3, 3, 3, 3, 3, 3, 3, 3, 3, 3, 3, 3, 3, 3, 3] 1 ratSqrt (fun _ xs => xs) (.fin 0)
      = .ok { N_x := 5, N_y := 15, Mean_x := .fin 0, Mean_y := .fin 3,
              t_stat := .fin (-(3 / 2)), p_classic := .fin 0, p_perm := 1 } := by
    unfold ttest_two_samples
    rw [hperm, hmg, hmb, htobs]
    rfl
  have hcoh : cohenD ratSqrt [6, -6, 0, 0, 0]
      [3, 3, 3, 3, 3, 3, 3, 3, 3, 3, 3, 3, 3, 3, 3] (.fin 0) (.fin 3) = .fin (-1) := by
    unfold cohenD
    rw [hvg, hvb]
    norm_num [pySub_fin, pyAdd_fin, pyDiv_fin, pySqrt_fin, ratSqrt_9]
  constructor
  · unfold show_category_ttests
    have hbuild : buildCatRows exDf7 ["t"] "ret" 1 ratSqrt (fun _ xs => xs) (.fin 0) ["a"]
        = .ok [{ category := "a", n_with := 5, n_baseline := 15, mean_with := .fin 0,
                 mean_baseline := .fin 3, t_stat := .fin (-(3 / 2)), p_perm := 1,
                 cohen_d := .fin (-1) }] := by
      unfold buildCatRows
      rw [hg, hbase]
      norm_num [buildCatRows, hok, hcoh, hmg, hmb]
    rw [hbuild]
    norm_num [sortRows, inseRowLe, attachHolm, roundCatRow, pyRound6, round6,
      roundHalfEven, List.enum, List.enumFrom, min_def, Except.map,
      Int.floor_intCast]
  · rw [hg, hbase]
    unfold specPooledCohenD
    rw [hmg, hmb, hvg, hvb]
    norm_num [pySub_fin, pyMul_fin, pyAdd_fin, pyDiv_fin, pySqrt_fin, ratSqrt_4]

/-! ### Claim C6 -/

/-- The permutation p-value inside a successful `ttest_two_samples` result
lies in the unit interval. -/
theorem ttest_pperm_bounds (x y : List ℚ) (numPerms : ℤ) (sqrtFn : ℚ → ℚ)
    (shuffler : ℕ → List ℚ → List ℚ) (pClassic : PyFloat) (r : TTestResult)
    (hn : 1 ≤ numPerms)
    (hok : ttest_two_samples x y numPerms sqrtFn shuffler pClassic = .ok r) :
    0 ≤ r.p_perm ∧ r.p_perm ≤ 1 := by
  unfold ttest_two_samples at hok
  cases hperm : permutation_pvalue [x, y] (ttestStatFn sqrtFn) numPerms false shuffler with
  | error e => rw [hperm] at hok; simp at hok
  | ok p =>
    rw [hperm] at hok
    have hb := perm_pvalue_bounds [x, y] (ttestStatFn sqrtFn) numPerms false shuffler p
      hn hperm
    cases hok
    simpa using hb

/-- Every row produced by the category loop carries a permutation p-value in
the unit interval. -/
theorem buildCatRows_pperm_bounds (df : List Row) (topTimes : List String)
    (returnCol : String) (numPerms : ℤ) (sqrtFn : ℚ → ℚ)
    (shuffler : ℕ → List ℚ → List ℚ) (pClassic : PyFloat) (hn : 1 ≤ numPerms) :
    ∀ (cats : List String) (rows : List CatRow),
      buildCatRows df topTimes returnCol numPerms sqrtFn shuffler pClassic cats
        = .ok rows →
      ∀ r ∈ rows, 0 ≤ r.p_perm ∧ r.p_perm ≤ 1
  | [], rows, hok => by
    unfold buildCatRows at hok
    cases hok
    simp
  | c :: cs, rows, hok => by
    simp only [buildCatRows] at hok
    by_cases hcond : 5 ≤ (catGroup df topTimes returnCol c).length
        ∧ 5 ≤ (catBaseline df topTimes returnCol).length
    · rw [if_pos hcond] at hok
      cases htt : ttest_two_samples (catGroup df topTimes returnCol c)
          (catBaseline df topTimes returnCol) numPerms sqrtFn shuffler pClassic with
      | error e => rw [htt] at hok; simp at hok
      | ok stats =>
        rw [htt] at hok
        cases hrec : buildCatRows df topTimes returnCol numPerms sqrtFn shuffler
            pClassic cs with
        | error e => rw [hrec] at hok; simp at hok
        | ok rest =>
          rw [hrec] at hok
          cases hok
          intro r hr
          rcases List.mem_cons.mp hr with rfl | hr'
          · simpa using ttest_pperm_bounds _ _ numPerms sqrtFn shuffler pClassic
              stats hn htt
          · exact buildCatRows_pperm_bounds df topTimes returnCol numPerms sqrtFn
              shuffler pClassic hn cs rest hrec r hr'
    · rw [if_neg hcond] at hok
      exact buildCatRows_pperm_bounds df topTimes returnCol numPerms sqrtFn shuffler
        pClassic hn cs rows hok

/-- Bounds for the half-to-even integer rounding on `[0, 10^6]`. -/
theorem roundHalfEven_nonneg_le (x : ℚ) (h0 : 0 ≤ x) (h1 : x ≤ 1000000) :
    0 ≤ roundHalfEven x ∧ roundHalfEven x ≤ 1000000 := by
  simp only [roundHalfEven]
  have hf0 : (0 : ℤ) ≤ ⌊x⌋ := Int.floor_nonneg.mpr h0
  have hfub : ⌊x⌋ ≤ 1000000 := by
    have h := Int.floor_le_floor h1
    have he : (⌊(1000000 : ℚ)⌋ : ℤ) = 1000000 := by norm_num
    omega
  have hxf : (⌊x⌋ : ℚ) ≤ x := Int.floor_le x
  split_ifs with ha hb hc
  · exact ⟨hf0, hfub⟩
  · refine ⟨by omega, ?_⟩
    by_contra hcon
    have hfe : ⌊x⌋ = 1000000 := by omega
    have hr0 : x - (⌊x⌋ : ℚ) ≤ 0 := by
      rw [hfe]
      push_cast
      linarith
    linarith
  · exact ⟨hf0, hfub⟩
  · refine ⟨by omega, ?_⟩
    by_contra hcon
    have hfe : ⌊x⌋ = 1000000 := by omega
    have hr0 : x - (⌊x⌋ : ℚ) ≤ 0 := by
      rw [hfe]
      push_cast
      linarith
    push_neg at ha
    linarith

/-- `round(·, 6)` maps the unit interval into itself. -/
theorem round6_mem_unit (q : ℚ) (h0 : 0 ≤ q) (h1 : q ≤ 1) :
    0 ≤ round6 q ∧ round6 q ≤ 1 := by
  obtain ⟨ha, hb⟩ := roundHalfEven_nonneg_le (q * 1000000) (by positivity) (by nlinarith)
  unfold round6
  constructor
  · have hc : (0 : ℚ) ≤ ((roundHalfEven (q * 1000000) : ℤ) : ℚ) := by exact_mod_cast ha
    positivity
  · rw [div_le_one (by norm_num)]
    exact_mod_cast hb

/-- Membership through the stable insertion. -/
theorem mem_inseRowLe (x y : CatRow) : ∀ (l : List CatRow),
    (y ∈ inseRowLe x l ↔ y = x ∨ y ∈ l)
  | [] => by simp [inseRowLe]
  | a :: t => by
    simp only [inseRowLe]
    split_ifs with h
    · simp
    · simp only [List.mem_cons, mem_inseRowLe x y t]
      tauto

/-- Sorting the result rows preserves membership. -/
theorem mem_sortRows (y : CatRow) : ∀ (l : List CatRow),
    (y ∈ sortRows l ↔ y ∈ l)
  | [] => by simp [sortRows]
  | a :: t => by
    have ih := mem_sortRows y t
    unfold sortRows at ih ⊢
    simp only [List.foldr_cons, mem_inseRowLe, ih, List.mem_cons]

/-- Rows annotated by `attachHolm` over the enumeration of a row list with
unit-interval raw p-values satisfy `raw ≤ adjusted ≤ 1`. -/
theorem attachHolm_ge_raw (l : List CatRow)
    (hb : ∀ r ∈ l, 0 ≤ r.p_perm ∧ r.p_perm ≤ 1) :
    ∀ rH ∈ attachHolm l.length l.enum,
      rH.p_perm ≤ rH.p_perm_holm ∧ rH.p_perm_holm ≤ 1 := by
  intro rH hrH
  unfold attachHolm at hrH
  simp only [List.mem_map] at hrH
  obtain ⟨⟨i, row⟩, hmem, rfl⟩ := hrH
  obtain ⟨-, hi, hget⟩ := List.mem_enumFrom hmem
  have hrow : row ∈ l := by
    rw [hget]
    exact List.getElem_mem _
  obtain ⟨h0, h1⟩ := hb row hrow
  have hilt : i < l.length := by omega
  have hfac : (1 : ℚ) ≤ (l.length : ℚ) - (i : ℚ) := by
    have : (i : ℚ) + 1 ≤ (l.length : ℚ) := by exact_mod_cast hilt
    linarith
  constructor
  · exact le_min h1 (le_mul_of_one_le_right h0 hfac)
  · exact min_le_left _ _

/-- C6: every Holm-adjusted p-value produced by the category t-test
correction satisfies `p_adjusted ≥ p_raw` and `p_adjusted ≤ 1`, elementwise
over the result rows (the raw values, being permutation p-values, lie in
`[0, 1]`). -/
theorem holm_adjusted_ge_raw (df : List Row) (topTimes categories : List String)
    (returnCol : String) (numPerms : ℤ) (sqrtFn : ℚ → ℚ)
    (shuffler : ℕ → List ℚ → List ℚ) (pClassic : PyFloat) (alpha : ℚ)
    (out : List CatRowH × List String) (hn : 1 ≤ numPerms)
    (hok : show_category_ttests df topTimes categories returnCol numPerms sqrtFn
      shuffler pClassic alpha = .ok out) :
    ∀ rH ∈ out.1, rH.p_perm ≤ rH.p_perm_holm ∧ rH.p_perm_holm ≤ 1 := by
  unfold show_category_ttests at hok
  cases hbuild : buildCatRows df topTimes returnCol numPerms sqrtFn shuffler pClassic
      categories with
  | error e => rw [hbuild] at hok; simp at hok
  | ok rows =>
    rw [hbuild] at hok
    dsimp only at hok
    by_cases hemp : rows.isEmpty
    · rw [if_pos hemp] at hok
      simp at hok
    · rw [if_neg hemp] at hok
      cases hok
      intro rH hrH
      refine attachHolm_ge_raw (sortRows (rows.map roundCatRow)) ?_ rH hrH
      intro r hr
      rw [mem_sortRows] at hr
      obtain ⟨r0, hr0, rfl⟩ := List.mem_map.mp hr
      have hb0 := buildCatRows_pperm_bounds df topTimes returnCol numPerms sqrtFn
        shuffler pClassic hn categories rows hbuild r0 hr0
      simpa [roundCatRow] using round6_mem_unit r0.p_perm hb0.1 hb0.2

theorem ratSqrt_0 : ratSqrt 0 = 0 := by
  have h1 : natSqrtLin 0 = 0 := by decide
  have h2 : natSqrtLin 1 = 1 := by decide
  norm_num [ratSqrt, show Int.toNat 0 = 0 from rfl, show Int.toNat 1 = 1 from rfl, h1, h2]

theorem pyDiv_zero_zero : pyDiv (.fin 0) (.fin 0) = .nan := rfl

theorem pyGe_nan_left (x : PyFloat) : pyGe .nan x = false := by cases x <;> rfl

/-- A degenerate concrete frame for the C6 witness: one category with five
zero observations against a baseline of five zero observations (zero
variances, so the t statistic and effect size are NaN and the permutation
p-value is 0). -/
def exDf6 : List Row :=
  List.replicate 5 (mkRow7 1 1 0) ++ List.replicate 5 (mkRow7 0 0 0)

/-- Witness for C6 at the concrete frame `exDf6`. -/
theorem holm_adjusted_ge_raw_witness :
    ∃ out, show_category_ttests exDf6 ["t"] ["a"] "ret" 1 ratSqrt (fun _ xs => xs)
        (.fin 0) (1 / 20) = .ok out
      ∧ ∀ rH ∈ out.1, rH.p_perm ≤ rH.p_perm_holm ∧ rH.p_perm_holm ≤ 1 := by
  have hg : catGroup exDf6 ["t"] "ret" "a" = [0, 0, 0, 0, 0] := by
    norm_num [catGroup, exDf6, mkRow7, List.replicate, List.filter_cons, List.filter_nil,
      List.filterMap_cons, List.filterMap_nil, List.filter_append]
  have hbase : catBaseline exDf6 ["t"] "ret" = [0, 0, 0, 0, 0] := by
    norm_num [catBaseline, exDf6, mkRow7, List.replicate, List.filter_cons, List.filter_nil,
      List.filterMap_cons, List.filterMap_nil, List.filter_append]
  have hv : pyVar [0, 0, 0, 0, 0] = .fin 0 := by
    rw [pyVar_eval _ (by simp)]
    norm_num
  have hm : pyMean [0, 0, 0, 0, 0] = .fin 0 := by
    rw [pyMean_eval _ (by simp)]
    norm_num
  have hst : ttestStat ratSqrt [0, 0, 0, 0, 0] [0, 0, 0, 0, 0] = .nan := by
    unfold ttestStat
    rw [hm, hv]
    norm_num [pySub_fin, pyDiv_fin, pyAdd_fin, pySqrt_fin, ratSqrt_0, pyDiv_zero_zero]
  have hstat : ttestStatFn ratSqrt [[0, 0, 0, 0, 0], [0, 0, 0, 0, 0]] = .nan := by
    unfold ttestStatFn
    simpa using hst
  have hiter : permIterGroups [[0, 0, 0, 0, 0], [0, 0, 0, 0, 0]] (fun _ xs => xs) 0
      = [[0, 0, 0, 0, 0], [0, 0, 0, 0, 0]] := by
    norm_num [permIterGroups, poolSeq, npSplitSizes]
  have hperm : permutation_pvalue [[0, 0, 0, 0, 0], [0, 0, 0, 0, 0]]
      (ttestStatFn ratSqrt) 1 false (fun _ xs => xs) = .ok 0 := by
    unfold permutation_pvalue
    norm_num [List.countP, List.countP.go, hiter, hstat, pyGe_nan_left]
  have hco : cohenD ratSqrt [0, 0, 0, 0, 0] [0, 0, 0, 0, 0] (.fin 0) (.fin 0)
      = .nan := by
    unfold cohenD
    rw [hv]
    norm_num [pySub_fin, pyAdd_fin, pyDiv_fin, pySqrt_fin, ratSqrt_0, pyDiv_zero_zero]
  have httest : ttest_two_samples [0, 0, 0, 0, 0] [0, 0, 0, 0, 0] 1 ratSqrt
      (fun _ xs => xs) (.fin 0)
      = .ok { N_x := 5, N_y := 5, Mean_x := .fin 0, Mean_y := .fin 0,
              t_stat := .nan, p_classic := .fin 0, p_perm := 0 } := by
    unfold ttest_two_samples
    rw [hperm, hm, hst]
    rfl
  have hok : show_category_ttests exDf6 ["t"] ["a"] "ret" 1 ratSqrt (fun _ xs => xs)
      (.fin 0) (1 / 20)
      = .ok ([{ category := "a", n_with := 5, n_baseline := 5, mean_with := .fin 0,
                mean_baseline := .fin 0, t_stat := .nan, p_perm := 0,
                cohen_d := .nan, p_perm_holm := 0 }], ["a"]) := by
    unfold show_category_ttests
    have hbuild : buildCatRows exDf6 ["t"] "ret" 1 ratSqrt (fun _ xs => xs) (.fin 0) ["a"]
        = .ok [{ category := "a", n_with := 5, n_baseline := 5, mean_with := .fin 0,
                 mean_baseline := .fin 0, t_stat := .nan, p_perm := 0,
                 cohen_d := .nan }] := by
      unfold buildCatRows
      rw [hg, hbase]
      norm_num [buildCatRows, httest, hco, hm]
    rw [hbuild]
    norm_num [sortRows, inseRowLe, attachHolm, roundCatRow, pyRound6, round6,
      roundHalfEven, List.enum, List.enumFrom, min_def, Int.floor_intCast]
  exact ⟨_, hok, holm_adjusted_ge_raw exDf6 ["t"] ["a"] "ret" 1 ratSqrt
    (fun _ xs => xs) (.fin 0) (1 / 20) _ (by norm_num) hok⟩

end DSUni
